import Mathlib

/-!
Verification of the Export/Backup Store and generation-call error handling of
the travel-itinerary application (files `export_service.py`, `app.py`).

Python strings are modelled as `List Char`; cell / JSON values as `Val`
(`vnone` models Python `None` / a missing key, `vint` an `int`, `vstr` a
`str`).  The filters dictionary is modelled by the eight keys the export code
reads via `filters.get(...)`.  File-system state is explicit: the spreadsheet
file is `Option Sheet` (`none` = file does not exist; the workbook is
identified with its "Data" sheet, a list of rows, each row a list of cell
values, row 1 first), and the Backup Log file is `BackupFile` (absent,
corrupt JSON, or a valid JSON array of entries).  Fallible external I/O
(openpyxl load/save, per-entry cell writes) is driven by explicit outcome
oracles; a failed entry write is modelled as atomic (it leaves the in-memory
sheet unchanged).
-/

namespace ItineraryExport

/-- A Python value as stored in a cell or a JSON field. -/
inductive Val where
  | vnone : Val
  | vint : Int → Val
  | vstr : List Char → Val
deriving DecidableEq

/-- Python `str(value)` for the values we model. -/
def pyStr : Val → List Char
  | Val.vnone => "None".data
  | Val.vint n => (toString n).data
  | Val.vstr s => s

/-- The filters dictionary, restricted to the eight keys the export service
reads with `filters.get(...)`; `Val.vnone` models both a missing key and an
explicit `None`. -/
structure Filters where
  days_count : Val
  region : Val
  deity : Val
  yatra_specifics : Val
  pace : Val
  transport_preference : Val
  additional_instructions : Val
  specific_interests : Val
deriving DecidableEq

/-- One object of the Backup Log JSON array:
`{**filters, "generated_itinerary": output}`. -/
structure Entry where
  filters : Filters
  generated_itinerary : Val
deriving DecidableEq

/-- `startsWith tok s` : `tok` is a prefix of `s` (decision procedure). -/
def startsWith : List Char → List Char → Bool
  | [], _ => true
  | _ :: _, [] => false
  | a :: as, b :: bs => a = b && startsWith as bs

/-- `containsTok tok s` : `tok` occurs as a contiguous substring of `s`. -/
def containsTok (tok : List Char) : List Char → Bool
  | [] => tok.isEmpty
  | c :: rest => startsWith tok (c :: rest) || containsTok tok rest

/-- One pass of `re.sub(re.escape(tok), '', data)`: left-to-right,
non-overlapping removal of every occurrence of the literal `tok`.  Fuel-based
so that it computes by kernel reduction; `removeAll` supplies fuel
`s.length`, which always suffices because every step consumes at least one
character of `s`.  When the fuel runs out the remaining suffix is returned
unchanged. -/
def removeAllFuel (tok : List Char) : Nat → List Char → List Char
  | 0, s => s
  | _ + 1, [] => []
  | fuel + 1, c :: rest =>
    if tok ≠ [] ∧ startsWith tok (c :: rest) = true then
      removeAllFuel tok fuel (List.drop (tok.length - 1) rest)
    else
      c :: removeAllFuel tok fuel rest

/-- Removal of every occurrence of the literal token `tok` from `s`, as
`re.sub(re.escape(tok), '', s)` does. -/
def removeAll (tok s : List Char) : List Char :=
  removeAllFuel tok s.length s

/-- The literal tokens removed by `__markdown_to_text`, in source order. -/
def stuff_to_remove : List (List Char) :=
  ["### ".data, "####".data, "##".data, "#".data, " - ".data, "- ".data,
   "---".data, "**".data, "***".data, "  ".data]

/-- `__markdown_to_text`: strips the fixed markup tokens one after the other
by literal substring removal. -/
def markdown_to_text (data : List Char) : List Char :=
  stuff_to_remove.foldl (fun d tok => removeAll tok d) data

/-- Each fuel-bounded removal pass only deletes characters. -/
theorem removeAllFuel_sublist (tok : List Char) :
    ∀ (fuel : Nat) (s : List Char), List.Sublist (removeAllFuel tok fuel s) s := by
  intro fuel
  induction fuel with
  | zero => intro s; exact List.Sublist.refl s
  | succ n ih =>
    intro s
    match s with
    | [] => exact List.Sublist.refl []
    | c :: rest =>
      rw [removeAllFuel]
      by_cases h : tok ≠ [] ∧ startsWith tok (c :: rest) = true
      · rw [if_pos h]
        exact ((ih _).trans (List.drop_sublist _ _)).trans
          (List.sublist_cons_self c rest)
      · rw [if_neg h]
        exact (ih rest).cons₂ c

/-- A single-token removal only deletes characters. -/
theorem removeAll_sublist (tok s : List Char) : List.Sublist (removeAll tok s) s :=
  removeAllFuel_sublist tok s.length s

theorem foldl_removeAll_sublist (toks : List (List Char)) :
    ∀ s : List Char, List.Sublist (toks.foldl (fun d tok => removeAll tok d) s) s := by
  induction toks with
  | nil => intro s; exact List.Sublist.refl s
  | cons t ts ih =>
    intro s
    exact (ih (removeAll t s)).trans (removeAll_sublist t s)

/-- C10: for every input string `s`, `__markdown_to_text s` is a subsequence
of `s` — the normalization only deletes characters (occurrences of the fixed
tokens), never inserts or reorders them — and hence is never longer than
`s`. -/
theorem markdown_to_text_sublist (s : List Char) :
    List.Sublist (markdown_to_text s) s ∧ (markdown_to_text s).length ≤ s.length := by
  have h : List.Sublist (markdown_to_text s) s := foldl_removeAll_sublist stuff_to_remove s
  exact ⟨h, h.length_le⟩

/-- The fixed column order of the "Data" sheet (`EXCEL_COLUMNS`). -/
def EXCEL_COLUMNS : List (List Char) :=
  ["index".data, "days_count".data, "region".data, "deity".data,
   "yatra_specifics".data, "pace".data, "transport_preference".data,
   "additional_instructions".data, "specific_interests".data,
   "generated_itinerary".data]

/-- The header row written by `_initialize_excel` (`ws.append(EXCEL_COLUMNS)`). -/
def headerRow : List Val := EXCEL_COLUMNS.map Val.vstr

/-- The "Data" sheet of the workbook: its rows in order (row 1 first), each a
list of cell values. -/
abbrev Sheet := List (List Val)

/-- `ws.max_row` of openpyxl: the number of rows, but never less than 1 (an
empty sheet reports `max_row = 1`). -/
def maxRow (s : Sheet) : Nat := max s.length 1

/-- The value of cell A1 (`ws["A1"].value`); an empty sheet yields `None`. -/
def cellA1 : Sheet → Val
  | [] => Val.vnone
  | r :: _ => r.headD Val.vnone

/-- The Backup Log JSON file. -/
inductive BackupFile where
  | absent : BackupFile
  | corrupt : BackupFile
  | valid : List Entry → BackupFile
deriving DecidableEq

/-- Reading the Backup Log as `write_json_backup` does: a missing file and a
`json.JSONDecodeError` both give the empty array. -/
def backupEntries : BackupFile → List Entry
  | BackupFile.absent => []
  | BackupFile.corrupt => []
  | BackupFile.valid l => l

/-- The on-disk state the export service manipulates: the spreadsheet file
(`none` = does not exist, identified with its "Data" sheet) and the Backup
Log file. -/
structure ExportState where
  excel : Option Sheet
  backup : BackupFile
deriving DecidableEq

/-- The header-repair branch of `_initialize_excel` on a loaded workbook:
`if ws.max_row == 1 and ws["A1"].value is None: ws.append(EXCEL_COLUMNS)`. -/
def repairSheet (s : Sheet) : Sheet :=
  if maxRow s = 1 ∧ cellA1 s = Val.vnone then s ++ [headerRow] else s

/-- `_initialize_excel`: returns the new on-disk spreadsheet state and the
in-memory "Data" sheet.  If the file does not exist, a workbook holding only
the header row is created and saved at once; otherwise the file is loaded
(disk unchanged) and the header repaired in memory if missing. -/
def initialize_excel : Option Sheet → Option Sheet × Sheet
  | none => (some [headerRow], [headerRow])
  | some s => (some s, repairSheet s)

/-- The entry object `{**filters, "generated_itinerary": output}`. -/
def mkEntry (f : Filters) (out : List Char) : Entry :=
  ⟨f, Val.vstr out⟩

/-- `write_json_backup`: read the Backup Log (missing or corrupt ⇒ empty
array), append the entry, write the array back. -/
def write_json_backup (f : Filters) (out : List Char) (b : BackupFile) :
    BackupFile :=
  BackupFile.valid (backupEntries b ++ [mkEntry f out])

/-- The row written by `write_to_excel_with_sync`: the index in column 1,
then the eight filter values read with `filters.get`, then `str(output)` (the
normalized output, already a string). -/
def makeRow (idx : Nat) (f : Filters) (outCell : Val) : List Val :=
  [Val.vint (idx : Int), f.days_count, f.region, f.deity, f.yatra_specifics,
   f.pace, f.transport_preference, f.additional_instructions,
   f.specific_interests, outCell]

/-- Kind of exception raised by a spreadsheet step. -/
inductive ExcErr where
  | perm : ExcErr
  | other : ExcErr
deriving DecidableEq

/-- Outcome oracle for the spreadsheet steps of `write_to_excel_with_sync`
(the body of its `try`): everything succeeds, `_initialize_excel` raises, or
a later step (row write / formatting / `wb.save`) raises.  In the latter case
the disk already holds the freshly created header-only file when the file did
not exist before. -/
inductive AppendOracle where
  | ok : AppendOracle
  | failInit : ExcErr → AppendOracle
  | failLater : ExcErr → AppendOracle
deriving DecidableEq

/-- `write_to_excel_with_sync`: normalize the output, always write the JSON
backup first, then attempt the spreadsheet steps; any exception there is
caught (`PermissionError` and the catch-all both return `False`). -/
def write_to_excel_with_sync (f : Filters) (output : List Char)
    (orc : AppendOracle) (st : ExportState) : ExportState × Bool :=
  let out := markdown_to_text output
  let b1 := write_json_backup f out st.backup
  match orc with
  | AppendOracle.failInit _ => (⟨st.excel, b1⟩, false)
  | AppendOracle.failLater _ => (⟨(initialize_excel st.excel).1, b1⟩, false)
  | AppendOracle.ok =>
    let mem := (initialize_excel st.excel).2
    let nextIndex : Nat := if maxRow mem ≥ 2 then maxRow mem else 1
    (⟨some (mem ++ [makeRow nextIndex f (Val.vstr out)]), b1⟩, true)

/-- C1: every call to `write_to_excel_with_sync` leaves the Backup Log with
exactly one more entry than it held before the call (a missing or corrupt log
reads as zero entries, exactly as the code reads it), whatever the outcome of
the spreadsheet steps — success, `PermissionError`, or any other
exception. -/
theorem append_backup_gains_one_entry (f : Filters) (output : List Char)
    (orc : AppendOracle) (st : ExportState) :
    (backupEntries (write_to_excel_with_sync f output orc st).1.backup).length
      = (backupEntries st.backup).length + 1 := by
  cases orc <;>
    simp [write_to_excel_with_sync, write_json_backup, backupEntries]

/-- C3: `write_to_excel_with_sync` never raises from its spreadsheet steps
(it is a total function into `ExportState × Bool`): it returns `true` exactly
when opening, writing, formatting and saving all complete, and returns
`false` both when the workbook file is locked (`PermissionError`) and when
any other exception occurs during those steps. -/
theorem append_result_iff_ok (f : Filters) (output : List Char)
    (orc : AppendOracle) (st : ExportState) :
    (write_to_excel_with_sync f output orc st).2 = true
      ↔ orc = AppendOracle.ok := by
  cases orc <;> simp [write_to_excel_with_sync]

/-- The lookup tuple `row_tuple` that `sync_missing_entries` builds from a
Backup Log entry: the eight filter values, then the raw
`generated_itinerary` value. -/
def rowTuple (e : Entry) : List Val :=
  [e.filters.days_count, e.filters.region, e.filters.deity,
   e.filters.yatra_specifics, e.filters.pace, e.filters.transport_preference,
   e.filters.additional_instructions, e.filters.specific_interests,
   e.generated_itinerary]

/-- The spreadsheet row `sync_missing_entries` writes for an entry: column 1
gets `ws.max_row` as index, columns 2–9 the raw tuple values, column 10
`str(value)`. -/
def syncRow (mem : Sheet) (e : Entry) : List Val :=
  [Val.vint (maxRow mem : Int), e.filters.days_count, e.filters.region,
   e.filters.deity, e.filters.yatra_specifics, e.filters.pace,
   e.filters.transport_preference, e.filters.additional_instructions,
   e.filters.specific_interests, Val.vstr (pyStr e.generated_itinerary)]

/-- Outcome of attempting to write one Backup Log entry into the sheet. -/
inductive EntryOutcome where
  | ok : EntryOutcome
  | permErr : EntryOutcome
  | otherErr : EntryOutcome
deriving DecidableEq

/-- Outcome oracle for the fallible steps of `sync_missing_entries`:
the `_initialize_excel` call (`none` = succeeds; `PermissionError` is caught,
any other exception propagates), the write attempt of the i-th Backup Log
entry, and the final `wb.save`. -/
structure SyncOracle where
  initOutcome : Option ExcErr
  entryOutcome : Nat → EntryOutcome
  saveOk : Bool

/-- The per-entry loop of `sync_missing_entries`.  Arguments: outcome oracle,
entries still to process, index of the next entry in the original list, the
in-memory sheet, the set of existing row signatures, the running `added`
count.  Returns the final sheet, the `remaining_entries` list and `added`.
An entry whose tuple matches an existing signature is skipped and dropped; a
successful write appends the row and registers its signature; a
`PermissionError` keeps the current entry and breaks (NOT keeping the
unprocessed tail); any other exception keeps the entry and continues.  A
failed write is modelled as atomic: the sheet is unchanged. -/
def syncLoop (orc : Nat → EntryOutcome) :
    List Entry → Nat → Sheet → List (List Val) → Nat →
      Sheet × List Entry × Nat
  | [], _, mem, _, added => (mem, [], added)
  | e :: rest, i, mem, existing, added =>
    if rowTuple e ∈ existing then
      syncLoop orc rest (i + 1) mem existing added
    else
      match orc i with
      | EntryOutcome.ok =>
        syncLoop orc rest (i + 1) (mem ++ [syncRow mem e])
          (rowTuple e :: existing) (added + 1)
      | EntryOutcome.permErr => (mem, [e], added)
      | EntryOutcome.otherErr =>
        let r := syncLoop orc rest (i + 1) mem existing added
        (r.1, e :: r.2.1, r.2.2)

/-- Result of `sync_missing_entries`: a normal return with the new file-system
state and the added count, or an uncaught exception (with the file-system
state at the moment it propagates). -/
inductive SyncResult where
  | ok : ExportState → Nat → SyncResult
  | raised : ExportState → SyncResult
deriving DecidableEq

/-- `sync_missing_entries`: no Backup Log file ⇒ 0; corrupt JSON ⇒ reset the
log to `[]` and return 0; empty log ⇒ 0; `PermissionError` opening the
workbook ⇒ 0 with the log untouched (any other exception there propagates);
otherwise run the per-entry loop, save the workbook when rows were added
(an exception in that save propagates, leaving the log untouched), and
always rewrite the Backup Log to exactly `remaining_entries`. -/
def sync_missing_entries (orc : SyncOracle) (st : ExportState) : SyncResult :=
  match st.backup with
  | BackupFile.absent => SyncResult.ok st 0
  | BackupFile.corrupt =>
    SyncResult.ok ⟨st.excel, BackupFile.valid []⟩ 0
  | BackupFile.valid entries =>
    if entries = [] then SyncResult.ok st 0
    else
      match orc.initOutcome with
      | some ExcErr.perm => SyncResult.ok st 0
      | some ExcErr.other => SyncResult.raised st
      | none =>
        let disk1 := (initialize_excel st.excel).1
        let mem := (initialize_excel st.excel).2
        let existing := (mem.drop 1).map (fun r => r.drop 1)
        let res := syncLoop orc.entryOutcome entries 0 mem existing 0
        if 0 < res.2.2 then
          if orc.saveOk then
            SyncResult.ok ⟨some res.1, BackupFile.valid res.2.1⟩ res.2.2
          else SyncResult.raised ⟨disk1, st.backup⟩
        else SyncResult.ok ⟨disk1, BackupFile.valid res.2.1⟩ res.2.2

/-- C8: a present but corrupt Backup Log makes `sync_missing_entries` rewrite
the log to the empty array and return 0, leaving the spreadsheet file
untouched, whatever the oracle. -/
theorem sync_corrupt_resets (orc : SyncOracle) (ex : Option Sheet) :
    sync_missing_entries orc ⟨ex, BackupFile.corrupt⟩
      = SyncResult.ok ⟨ex, BackupFile.valid []⟩ 0 := rfl

/-- A concrete Backup Log entry used in counterexamples and witnesses. -/
def entryA : Entry :=
  ⟨⟨Val.vint 1, Val.vstr "A".data, Val.vnone, Val.vnone, Val.vnone,
    Val.vnone, Val.vnone, Val.vnone⟩, Val.vstr "outA".data⟩

/-- A second concrete Backup Log entry, distinct from `entryA`. -/
def entryB : Entry :=
  ⟨⟨Val.vint 2, Val.vstr "B".data, Val.vnone, Val.vnone, Val.vnone,
    Val.vnone, Val.vnone, Val.vnone⟩, Val.vstr "outB".data⟩

/-- C2 (code bug, demonstration): with a Backup Log of two unsynced entries
and a `PermissionError` on the very first entry write, the loop breaks and
the Backup Log is rewritten to hold ONLY the entry being processed — the
subsequent unprocessed entry `entryB` is silently dropped, although it was
never matched against nor written into the spreadsheet.  The code's
`remaining_entries` never receives the unprocessed tail after `break`. -/
theorem sync_lock_drops_unprocessed_entries :
    sync_missing_entries ⟨none, fun _ => EntryOutcome.permErr, true⟩
        ⟨some [headerRow], BackupFile.valid [entryA, entryB]⟩
      = SyncResult.ok ⟨some [headerRow], BackupFile.valid [entryA]⟩ 0 := by
  decide

/-- The oracle for a run of `sync_missing_entries` in which every external
step succeeds. -/
def okSyncOracle : SyncOracle :=
  ⟨none, fun _ => EntryOutcome.ok, true⟩

/-- When every entry write succeeds, the loop leaves no remaining entries:
each entry is either matched (dropped) or written (dropped). -/
theorem syncLoop_allOk_remaining (entries : List Entry) :
    ∀ (i : Nat) (mem : Sheet) (existing : List (List Val)) (added : Nat),
      (syncLoop (fun _ => EntryOutcome.ok) entries i mem existing added).2.1
        = [] := by
  induction entries with
  | nil => intro i mem existing added; rfl
  | cons e rest ih =>
    intro i mem existing added
    by_cases h : rowTuple e ∈ existing
    · rw [syncLoop, if_pos h]; exact ih ..
    · rw [syncLoop, if_neg h]; exact ih ..

/-- A fully successful run of `sync_missing_entries` leaves the Backup Log
absent or equal to the empty array. -/
theorem sync_ok_backup_empty (st st1 : ExportState) (n : Nat)
    (h : sync_missing_entries okSyncOracle st = SyncResult.ok st1 n) :
    st1.backup = BackupFile.absent ∨ st1.backup = BackupFile.valid [] := by
  obtain ⟨ex, bk⟩ := st
  cases bk with
  | absent =>
    rw [show sync_missing_entries okSyncOracle ⟨ex, BackupFile.absent⟩
          = SyncResult.ok ⟨ex, BackupFile.absent⟩ 0 from rfl] at h
    injection h with h1 h2
    rw [← h1]
    exact Or.inl rfl
  | corrupt =>
    rw [show sync_missing_entries okSyncOracle ⟨ex, BackupFile.corrupt⟩
          = SyncResult.ok ⟨ex, BackupFile.valid []⟩ 0 from rfl] at h
    injection h with h1 h2
    rw [← h1]
    exact Or.inr rfl
  | valid l =>
    by_cases hl : l = []
    · subst hl
      rw [show sync_missing_entries okSyncOracle ⟨ex, BackupFile.valid []⟩
            = SyncResult.ok ⟨ex, BackupFile.valid []⟩ 0 from rfl] at h
      injection h with h1 h2
      rw [← h1]
      exact Or.inr rfl
    · simp only [sync_missing_entries, if_neg hl, okSyncOracle,
        syncLoop_allOk_remaining, eq_self_iff_true, if_true] at h
      split at h
      · injection h with h1 h2
        rw [← h1]
        exact Or.inr rfl
      · injection h with h1 h2
        rw [← h1]
        exact Or.inr rfl

/-- A state whose Backup Log is absent or empty is a fixed point of
`sync_missing_entries`, which then returns 0 under any oracle. -/
theorem sync_fixed_point (orc : SyncOracle) (st : ExportState)
    (h : st.backup = BackupFile.absent ∨ st.backup = BackupFile.valid []) :
    sync_missing_entries orc st = SyncResult.ok st 0 := by
  obtain ⟨ex, bk⟩ := st
  rcases h with h | h
  · have hb : bk = BackupFile.absent := h
    subst hb
    rfl
  · have hb : bk = BackupFile.valid [] := h
    subst hb
    rfl

/-- C4: `sync_missing_entries` is idempotent.  If a call in which every
external step succeeds returns normally, then a second call on the resulting
state — with no appends in between — returns 0 under any oracle and leaves
the whole file-system state (in particular the spreadsheet row count)
unchanged. -/
theorem sync_idempotent (st st1 : ExportState) (n : Nat)
    (h : sync_missing_entries okSyncOracle st = SyncResult.ok st1 n)
    (orc : SyncOracle) :
    sync_missing_entries orc st1 = SyncResult.ok st1 0 :=
  sync_fixed_point orc st1 (sync_ok_backup_empty st st1 n h)

/-- The state after syncing the one-entry Backup Log `[entryA]` into a
header-only sheet. -/
def syncedStateA : ExportState :=
  ⟨some [headerRow, syncRow [headerRow] entryA], BackupFile.valid []⟩

/-- Witness for C4 at a concrete state: a first fully successful sync of a
one-entry Backup Log adds one row, and the second sync returns 0 and leaves
the state unchanged. -/
theorem sync_idempotent_witness :
    sync_missing_entries okSyncOracle
        ⟨some [headerRow], BackupFile.valid [entryA]⟩
      = SyncResult.ok syncedStateA 1
    ∧ sync_missing_entries okSyncOracle syncedStateA
      = SyncResult.ok syncedStateA 0 :=
  ⟨by decide,
   sync_idempotent ⟨some [headerRow], BackupFile.valid [entryA]⟩
     syncedStateA 1 (by decide) okSyncOracle⟩

/-- C6: on the input `"### Title\n- item **bold**"` the normalization yields
exactly `"Title\nitem bold"`; the result contains none of the literal tokens
`"### "`, `"- "`, `"**"`, and the remaining words are preserved verbatim
(the output is given in full). -/
theorem markdown_to_text_example :
    markdown_to_text "### Title\n- item **bold**".data = "Title\nitem bold".data ∧
    containsTok "### ".data (markdown_to_text "### Title\n- item **bold**".data) = false ∧
    containsTok "- ".data (markdown_to_text "### Title\n- item **bold**".data) = false ∧
    containsTok "**".data (markdown_to_text "### Title\n- item **bold**".data) = false := by
  refine ⟨by decide, by decide, by decide, by decide⟩

/-- A sheet that starts with the header row is left unchanged by the
header-repair branch of `_initialize_excel`. -/
theorem repairSheet_header (rows : List (List Val)) :
    repairSheet (headerRow :: rows) = headerRow :: rows := by
  rw [repairSheet, if_neg]
  rintro ⟨-, h2⟩
  exact Val.noConfusion (show Val.vstr "index".data = Val.vnone from h2)

/-- The index `write_to_excel_with_sync` computes
(`ws.max_row if ws.max_row >= 2 else 1`) always equals `ws.max_row`, because
`max_row` is never below 1. -/
theorem nextIndex_eq_maxRow (mem : Sheet) :
    (if maxRow mem ≥ 2 then maxRow mem else 1) = maxRow mem := by
  have h1 : 1 ≤ maxRow mem := Nat.le_max_right mem.length 1
  by_cases h : maxRow mem ≥ 2
  · rw [if_pos h]
  · rw [if_neg h]
    omega

/-- The filters of the concrete scenario of C5:
`{days_count: 3, region: "Varanasi", deity: "Shiva", ...}`. -/
def varanasiFilters : Filters :=
  ⟨Val.vint 3, Val.vstr "Varanasi".data, Val.vstr "Shiva".data,
   Val.vnone, Val.vstr "Relaxed".data, Val.vnone, Val.vnone, Val.vnone⟩

/-- The generated text of the concrete scenario of C5: `"### Day 1\n..."`. -/
def day1Output : List Char := "### Day 1\nVisit the ghats".data

/-- C5: in both operations the index stamped in column 1 of a newly written
row equals the sheet's current row count at the moment of the write
(`max_row`, not `max_row - 1`): a successful `write_to_excel_with_sync`
appends exactly `makeRow (maxRow mem)` to the initialized sheet `mem`, and
the row `sync_missing_entries` writes carries `maxRow mem` in column 1.
Moreover, on a fresh (non-existent) spreadsheet path the concrete call
`append({days_count: 3, region: "Varanasi", deity: "Shiva", ...},
"### Day 1\n...")` creates the file with the header row plus one data row of
index 1, and a Backup Log holding exactly one object whose `region` field is
the submitted `"Varanasi"`. -/
theorem new_row_index_is_row_count :
    (∀ (f : Filters) (out : List Char) (st : ExportState),
      (write_to_excel_with_sync f out AppendOracle.ok st).1.excel
        = some ((initialize_excel st.excel).2
            ++ [makeRow (maxRow (initialize_excel st.excel).2) f
                  (Val.vstr (markdown_to_text out))]))
    ∧ (∀ (mem : Sheet) (e : Entry),
        (syncRow mem e).headD Val.vnone = Val.vint (maxRow mem : Int))
    ∧ write_to_excel_with_sync varanasiFilters day1Output AppendOracle.ok
          ⟨none, BackupFile.absent⟩
        = (⟨some [headerRow,
              makeRow 1 varanasiFilters
                (Val.vstr (markdown_to_text day1Output))],
            BackupFile.valid
              [mkEntry varanasiFilters (markdown_to_text day1Output)]⟩, true)
    ∧ varanasiFilters.region = Val.vstr "Varanasi".data
    ∧ (mkEntry varanasiFilters (markdown_to_text day1Output)).filters.region
        = Val.vstr "Varanasi".data := by
  refine ⟨?_, ?_, by decide, rfl, rfl⟩
  · intro f out st
    simp only [write_to_excel_with_sync, nextIndex_eq_maxRow]
  · intro mem e
    rfl

/-- The data rows expected after successively appending the given
(filters, output) pairs, the first receiving index `startIdx`. -/
def expected_rows (startIdx : Nat) :
    List (Filters × List Char) → List (List Val)
  | [] => []
  | (f, out) :: rest =>
    makeRow startIdx f (Val.vstr (markdown_to_text out))
      :: expected_rows (startIdx + 1) rest

/-- Successive fully successful calls to `write_to_excel_with_sync`. -/
def append_all : List (Filters × List Char) → ExportState → ExportState
  | [], st => st
  | (f, out) :: rest, st =>
    append_all rest (write_to_excel_with_sync f out AppendOracle.ok st).1

theorem expected_rows_length (ps : List (Filters × List Char)) :
    ∀ n : Nat, (expected_rows n ps).length = ps.length := by
  induction ps with
  | nil => intro n; rfl
  | cons p rest ih =>
    intro n
    obtain ⟨f, out⟩ := p
    simp [expected_rows, ih]

theorem append_all_excel (ps : List (Filters × List Char)) :
    ∀ (rows : List (List Val)) (bk : BackupFile),
      (append_all ps ⟨some (headerRow :: rows), bk⟩).excel
        = some (headerRow :: (rows ++ expected_rows (rows.length + 1) ps)) := by
  induction ps with
  | nil => intro rows bk; simp [append_all, expected_rows]
  | cons p rest ih =>
    obtain ⟨f, out⟩ := p
    intro rows bk
    have hmem : (initialize_excel (some (headerRow :: rows))).2
        = headerRow :: rows := repairSheet_header rows
    have hstep : (write_to_excel_with_sync f out AppendOracle.ok
        ⟨some (headerRow :: rows), bk⟩).1
        = ⟨some (headerRow ::
              (rows ++ [makeRow (rows.length + 1) f
                (Val.vstr (markdown_to_text out))])),
           write_json_backup f (markdown_to_text out) bk⟩ := by
      simp only [write_to_excel_with_sync, nextIndex_eq_maxRow, hmem]
      have hmax : maxRow (headerRow :: rows) = rows.length + 1 := by
        rw [maxRow]
        simp
      rw [hmax]
      simp
    rw [append_all, hstep, ih]
    simp [expected_rows, List.append_assoc]

/-- C7: for every non-empty sequence of submitted (filters, output) pairs,
after the corresponding successful `write_to_excel_with_sync` calls on a
fresh path the "Data" sheet holds the header row plus exactly one data row
per call; data row `i` (1-based) is exactly
`[i, days_count, region, deity, yatra_specifics, pace, transport_preference,
additional_instructions, specific_interests, normalized output]` of the
`i`-th submitted pair (see `makeRow` / `expected_rows`). -/
theorem append_all_roundtrip (p : Filters × List Char)
    (ps : List (Filters × List Char)) (bk : BackupFile) :
    (append_all (p :: ps) ⟨none, bk⟩).excel
      = some (headerRow :: expected_rows 1 (p :: ps))
    ∧ (expected_rows 1 (p :: ps)).length = (p :: ps).length := by
  constructor
  · obtain ⟨f, out⟩ := p
    have hstep : (write_to_excel_with_sync f out AppendOracle.ok
        ⟨none, bk⟩).1
        = ⟨some (headerRow ::
              [makeRow 1 f (Val.vstr (markdown_to_text out))]),
           write_json_backup f (markdown_to_text out) bk⟩ := by
      simp [write_to_excel_with_sync, initialize_excel, maxRow, headerRow,
        EXCEL_COLUMNS]
    rw [append_all, hstep, append_all_excel]
    simp [expected_rows]
  · exact expected_rows_length (p :: ps) 1

/-- Outcome of the external text-generation call inside `__query_model`:
an exception anywhere in the `try` body, a falsy (missing) response object,
or a response whose `.text` is `None` or a string. -/
inductive GenOutcome where
  | raised : GenOutcome
  | noResponse : GenOutcome
  | response : Option (List Char) → GenOutcome
deriving DecidableEq

/-- Result of `__query_model`: a returned string or a re-raised exception. -/
inductive QueryResult where
  | ok : List Char → QueryResult
  | raised : QueryResult
deriving DecidableEq

/-- `__query_model` (`app.py`): a missing response or missing/empty text
yields the empty string (`if not response or not response.text: return ""`);
any exception raised inside the `try` is logged and re-raised. -/
def query_model (prompt : List Char) (outcome : GenOutcome) : QueryResult :=
  match prompt, outcome with
  | _, GenOutcome.raised => QueryResult.raised
  | _, GenOutcome.noResponse => QueryResult.ok []
  | _, GenOutcome.response none => QueryResult.ok []
  | _, GenOutcome.response (some t) =>
    if t = [] then QueryResult.ok [] else QueryResult.ok t

/-- C9: for every prompt, `__query_model` returns the empty string rather
than raising when the response is missing, when its text attribute is
`None`, and when its text is empty; any exception raised during the call is
re-raised to the caller. -/
theorem query_model_soft_and_hard_failures (prompt : List Char) :
    query_model prompt GenOutcome.noResponse = QueryResult.ok []
    ∧ query_model prompt (GenOutcome.response none) = QueryResult.ok []
    ∧ query_model prompt (GenOutcome.response (some [])) = QueryResult.ok []
    ∧ query_model prompt GenOutcome.raised = QueryResult.raised := by
  exact ⟨rfl, rfl, rfl, rfl⟩

end ItineraryExport
